import Mathlib

/-!
Verification of the room-subscription registry and broadcast engine of the
go-react server (package `api`).  The shallow embedding below translates the
Go code of `internal/api`:

* the subscriber registry `map[string]map[*websocket.Conn]context.CancelFunc`
  guarded by one `sync.Mutex` is modelled as a function from room keys to an
  optional association list of (connection, cancel-handle) pairs — `none`
  models an absent map slot, `some l` a present inner map with entries `l`;
* connections and cancellation handles are opaque identifiers (`Nat`);
* `notifyClients`, the post-upgrade part of `handleSubscribe`, and
  `handleCreateRoomMessage` become pure functions over this state, with the
  external collaborators (`uuid.Parse`, `pgstore.Queries.GetRoom`,
  `InsertMessage`, the websocket upgrade, and per-connection write failure)
  supplied as oracle parameters;
* Go `defer` semantics is made explicit: a run may be flagged as unwinding
  (panicking) at the suspension point, in which case only deferred actions
  (`conn.Close()`) execute during unwinding.
-/

/-! ### Definitions -/

/-- A connection handle (`*websocket.Conn` in the Go code), opaque. -/
abbrev Conn : Type := Nat

/-- A cancellation handle (`context.CancelFunc` in the Go code), opaque. -/
abbrev Cancel : Type := Nat

/-- One entry of a room's inner map: a connection and its cancel handle. -/
abbrev Subscriber : Type := Conn × Cancel

/-- The subscriber registry
`subscribers map[string]map[*websocket.Conn]context.CancelFunc`:
`none` is an absent room slot, `some l` a present inner map. -/
def RegMap : Type := String → Option (List Subscriber)

/-- The freshly made registry `make(map[string]map[*websocket.Conn]context.CancelFunc)`. -/
def emptyReg : RegMap := fun _ => none

/-- Go map assignment on the inner map: `m[conn] = cancel` replaces any
existing binding of `conn` and otherwise adds one. -/
def insertPair (l : List Subscriber) (conn : Conn) (k : Cancel) : List Subscriber :=
  (l.filter (fun p => p.1 ≠ conn)) ++ [(conn, k)]

/-- Lines 240–246 of the handler file: create the inner map when the room has
no slot yet, then `handler.subscribers[rawRoomId][conn] = cancel`. -/
def addSub (reg : RegMap) (room : String) (conn : Conn) (k : Cancel) : RegMap :=
  fun r => if r = room then some (insertPair ((reg room).getD []) conn k) else reg r

/-- Line 254: `delete(handler.subscribers[rawRoomId], conn)`.  Reading an
absent slot yields the nil map and `delete` on it is a no-op, so an absent
room slot stays absent; a present slot stays present (possibly empty). -/
def removeSub (reg : RegMap) (room : String) (conn : Conn) : RegMap :=
  fun r =>
    if r = room then
      match reg room with
      | none => none
      | some l => some (l.filter (fun p => p.1 ≠ conn))
    else reg r

/-- Is `conn` a member of `room`'s subscriber set? -/
def connMem (reg : RegMap) (room : String) (conn : Conn) : Bool :=
  ((reg room).getD []).any (fun p => p.1 = conn)

/-- Is the pair (`room`, `conn`) absent from the registry (no such entry,
whether because the slot is missing or the inner map lacks `conn`)? -/
def pairAbsent (reg : RegMap) (room : String) (conn : Conn) : Bool :=
  ((reg room).getD []).all (fun p => p.1 ≠ conn)

/-- A minimal JSON value universe for the payloads the handlers build. -/
inductive Json where
  | str (s : String)
  | obj (fields : List (String × Json))
deriving Repr

/-- The field names of a JSON object (and `[]` on a non-object). -/
def jsonKeys : Json → List String
  | .str _ => []
  | .obj fields => fields.map (fun p => p.1)

/-- Field lookup in a JSON object. -/
def jsonGet (j : Json) (key : String) : Option Json :=
  match j with
  | .str _ => none
  | .obj fields => (fields.find? (fun p => p.1 = key)).map (fun p => p.2)

/-- The constant `KindMessageCreated = "message_created"`. -/
def kindMessageCreated : String := "message_created"

/-- The `Message` struct: `RoomId` tagged `json:"-"`, `Kind` tagged
`json:"kind"`, `Value` tagged `json:"value"`. -/
structure Message where
  roomId : String
  kind : String
  value : Json
deriving Repr

/-- The `encoding/json` serialization of `Message`: the `json:"-"` tag omits
`RoomId`; `Kind` and `Value` appear under their tag names in field order. -/
def Message.toJson (m : Message) : Json :=
  .obj [("kind", .str m.kind), ("value", m.value)]

/-- Client-side parse of a wire payload: read the `kind` and `value` fields. -/
def decodeMessage (j : Json) : Option (String × Json) :=
  match jsonGet j "kind", jsonGet j "value" with
  | some (.str k), some v => some (k, v)
  | _, _ => none

/-- Result of one `notifyClients` call: the registry after the call (the
function never writes the map), the connections a write was attempted on, in
iteration order, and the (connection, cancel) pairs whose write failed and
whose cancel handle was therefore invoked. -/
structure NotifyResult where
  reg : RegMap
  attempts : List Conn
  cancels : List Subscriber

/-- Lines 186–203, `notifyClients`: under the mutex, look up
`subscribers[message.RoomId]`; if the slot is absent or the inner map is
empty, log and return; otherwise write the message to every connection and
invoke `cancel()` for each connection whose write failed.  `writeFails`
is the oracle saying which connections' `WriteJSON` returns an error. -/
def notifyClients (reg : RegMap) (message : Message) (writeFails : Conn → Bool) :
    NotifyResult :=
  match reg message.roomId with
  | none => ⟨reg, [], []⟩
  | some subscribers =>
      if subscribers.isEmpty then ⟨reg, [], []⟩
      else
        ⟨reg, subscribers.map (fun p => p.1),
          subscribers.filter (fun p => writeFails p.1)⟩

/-- Outcome of `pgstore.Queries.GetRoom`: a row, `pgx.ErrNoRows`, or any
other error. -/
inductive GetRoomResult where
  | ok
  | noRows
  | err
deriving Repr, DecidableEq

/-- The two signals that can complete `<-ctx.Done()` at line 250: the
request's own context ending (client disconnect / shutdown) or the
`cancel` stored in the registry being invoked by `notifyClients`. -/
inductive WakeSignal where
  | ctxDone
  | cancelled
deriving Repr, DecidableEq

/-- State of one subscription session after it ends. -/
structure SessionEnd where
  reg : RegMap
  removedRun : Bool
  closedConn : Bool

/-- Lines 234–257 of `handleSubscribe`, from `defer conn.Close()` on: register
the connection (lines 238–248), block at `<-ctx.Done()` until `signal` fires,
then delete the registry entry (lines 252–256); `conn.Close()` is deferred.
`panicAtWait` injects a panic while the session is suspended: unwinding runs
only the deferred `conn.Close()`, not the plain statements after the wait. -/
def runRegisteredSession (reg : RegMap) (rawRoomId : String) (conn : Conn)
    (k : Cancel) (signal : WakeSignal) (panicAtWait : Bool) : SessionEnd :=
  let reg1 := addSub reg rawRoomId conn k
  if panicAtWait then
    ⟨reg1, false, true⟩
  else
    ⟨removeSub reg1 rawRoomId conn, true, true⟩

/-- Observable outcome of one `handleSubscribe` request. -/
structure SubscribeResult where
  response : Option (String × Nat)
  upgradeAttempted : Bool
  registered : Bool
  removedRun : Bool
  closedConn : Bool
  reg : RegMap

/-- Lines 205–257, `handleSubscribe`: parse the raw `room_id` path parameter
(400 on failure), call `GetRoom` (404 on `pgx.ErrNoRows`, 500 on any other
error), upgrade the connection (400 on failure), then run the registered
session.  `parse` models `uuid.Parse`, `getRoom` the store call, `upgradeOk`
whether `upgrader.Upgrade` succeeds. -/
def handleSubscribe (parse : String → Option String)
    (getRoom : String → GetRoomResult) (upgradeOk : Bool) (rawRoomId : String)
    (conn : Conn) (k : Cancel) (reg : RegMap) (signal : WakeSignal)
    (panicAtWait : Bool) : SubscribeResult :=
  match parse rawRoomId with
  | none => ⟨some ("Invalid room id", 400), false, false, false, false, reg⟩
  | some roomId =>
      match getRoom roomId with
      | .noRows => ⟨some ("room not found", 404), false, false, false, false, reg⟩
      | .err => ⟨some ("Something went wrong", 500), false, false, false, false, reg⟩
      | .ok =>
          if upgradeOk then
            let e := runRegisteredSession reg rawRoomId conn k signal panicAtWait
            ⟨none, true, true, e.removedRun, e.closedConn, e.reg⟩
          else
            ⟨some ("Failed to upgrade connection", 400), true, false, false, false, reg⟩

/-- One observable action of `handleCreateRoomMessage`, in program order. -/
inductive HandlerEvent where
  | httpError (msg : String) (status : Nat)
  | writeResponse (body : Json)
  | goNotify (message : Message)
deriving Repr

/-- Lines 304–358, `handleCreateRoomMessage`: parse the room id (400), call
`GetRoom` (404/500), decode the body (400), `InsertMessage` (500 on error);
on success write the `{message_id}` response and only then spawn
`go handler.notifyClients(...)` with the `MessageCreated` envelope keyed by
the raw room id.  `decodeBody` is `some text` when the JSON body decodes,
`insertMessage` the store call returning the new id or an error. -/
def handleCreateRoomMessage (parse : String → Option String)
    (getRoom : String → GetRoomResult) (decodeBody : Option String)
    (insertMessage : String → String → Option String) (rawRoomId : String) :
    List HandlerEvent :=
  match parse rawRoomId with
  | none => [.httpError "Invalid room id" 400]
  | some roomId =>
      match getRoom roomId with
      | .noRows => [.httpError "room not found" 404]
      | .err => [.httpError "Something went wrong" 500]
      | .ok =>
          match decodeBody with
          | none => [.httpError "Invalid request body" 400]
          | some messageText =>
              match insertMessage roomId messageText with
              | none => [.httpError "Something went wrong" 500]
              | some messageId =>
                  [.writeResponse (.obj [("message_id", .str messageId)]),
                   .goNotify ⟨rawRoomId, kindMessageCreated,
                     .obj [("id", .str messageId), ("message", .str messageText)]⟩]

/-- The envelope spawned by a trace, if any (the argument of the single
`go notifyClients(...)`). -/
def spawnedMessage : List HandlerEvent → Option Message
  | [] => none
  | .goNotify m :: _ => some m
  | _ :: rest => spawnedMessage rest

/-- The HTTP-visible part of a trace: everything except the background spawn. -/
def httpEvents (trace : List HandlerEvent) : List HandlerEvent :=
  trace.filter (fun e => match e with | .goNotify _ => false | _ => true)

/-- A create-message request followed by its background broadcast: the
handler runs to completion (its HTTP response is fully written) and the
spawned goroutine then delivers, with `writeFails` deciding which subscriber
writes fail.  Returns the handler trace and the broadcast outcome. -/
def runCreateThenNotify (parse : String → Option String)
    (getRoom : String → GetRoomResult) (decodeBody : Option String)
    (insertMessage : String → String → Option String) (rawRoomId : String)
    (reg : RegMap) (writeFails : Conn → Bool) :
    List HandlerEvent × NotifyResult :=
  let trace := handleCreateRoomMessage parse getRoom decodeBody insertMessage rawRoomId
  match spawnedMessage trace with
  | none => (trace, ⟨reg, [], []⟩)
  | some m => (trace, notifyClients reg m writeFails)

/-- A registry with one room `"a"` holding connection 1 (cancel handle 10). -/
def reg6 : RegMap := fun r => if r = "a" then some [(1, 10)] else none

/-- A registry with one room `"a"` holding an empty (but present) inner map. -/
def reg5 : RegMap := fun r => if r = "a" then some [] else none

/-- A concrete envelope addressed to room `"a"`. -/
def msg5 : Message := ⟨"a", kindMessageCreated, .str "x"⟩

/-- A room with three subscribers: connections 1, 2, 3 with cancel handles
11, 12, 13. -/
def reg1c : RegMap := fun r => if r = "room1" then some [(1, 11), (2, 12), (3, 13)] else none

/-- A concrete envelope addressed to `"room1"`. -/
def msg1c : Message := ⟨"room1", kindMessageCreated, .str "hello"⟩

/-- A parse oracle accepting only the literal `"good"`. -/
def parse4 : String → Option String := fun s => if s = "good" then some "u" else none

/-- A parse oracle accepting only the literal `"r"`. -/
def parse3 : String → Option String := fun s => if s = "r" then some "u" else none

/-- A parse oracle modelling `uuid.Parse`'s case-insensitive acceptance:
both `"AB"` and `"ab"` parse to the canonical `"ab"`. -/
def parse9 : String → Option String :=
  fun s => if s = "AB" ∨ s = "ab" then some "ab" else none

/-- Registry states reachable through session lifecycles: the handler starts
from the freshly made empty map; each registration (lines 240–246) stores a
connection just produced by `upgrader.Upgrade`, hence absent from every
room's set; deletions (line 254) may happen at any time. -/
inductive Reachable : RegMap → Prop where
  | empty : Reachable emptyReg
  | add (reg : RegMap) (room : String) (conn : Conn) (k : Cancel) :
      Reachable reg → (∀ r, connMem reg r conn = false) →
      Reachable (addSub reg room conn k)
  | remove (reg : RegMap) (room : String) (conn : Conn) :
      Reachable reg → Reachable (removeSub reg room conn)

/-- One serialized registry operation. -/
inductive RegOp where
  | add (room : String) (conn : Conn) (k : Cancel)
  | remove (room : String) (conn : Conn)

/-- Apply one operation while holding the mutex. -/
def applyOp (reg : RegMap) : RegOp → RegMap
  | .add room conn k => addSub reg room conn k
  | .remove room conn => removeSub reg room conn

/-- Apply a serialized history of operations in order. -/
def applyOps (reg : RegMap) (ops : List RegOp) : RegMap :=
  ops.foldl applyOp reg

/-- Does an operation concern the given (room, connection) pair? -/
def opTouches (room : String) (conn : Conn) : RegOp → Bool
  | .add r c _ => r = room && c = conn
  | .remove r c => r = room && c = conn

/-- Is an operation an `Add`? -/
def opIsAdd : RegOp → Bool
  | .add _ _ _ => true
  | .remove _ _ => false

/-- The spec's observable, stated from its words for comparison with the
registry fold: a connection is an "add not yet matched by a remove" for a
room exactly when the last operation on that (room, connection) pair in the
history is an `Add`. -/
def specPendingAdd (ops : List RegOp) (room : String) (conn : Conn) : Bool :=
  match ops.reverse.find? (opTouches room conn) with
  | some op => opIsAdd op
  | none => false

/-- The connections currently registered under a room. -/
def connsOf (reg : RegMap) (room : String) : List Conn :=
  ((reg room).getD []).map (fun p => p.1)

/-! ### Lemmas and theorems -/

lemma addSub_apply_self (reg : RegMap) (room : String) (conn : Conn) (k : Cancel) :
    addSub reg room conn k room = some (insertPair ((reg room).getD []) conn k) := by
  simp [addSub]

lemma addSub_apply_ne (reg : RegMap) (room : String) (conn : Conn) (k : Cancel)
    (r : String) (h : r ≠ room) : addSub reg room conn k r = reg r := by
  simp [addSub, h]

lemma removeSub_apply_ne (reg : RegMap) (room : String) (conn : Conn)
    (r : String) (h : r ≠ room) : removeSub reg room conn r = reg r := by
  simp [removeSub, h]

lemma removeSub_apply_self (reg : RegMap) (room : String) (conn : Conn) :
    removeSub reg room conn room =
      match reg room with
      | none => none
      | some l => some (l.filter (fun p => p.1 ≠ conn)) := by
  simp [removeSub]

/-- If every entry of the inner list avoids `conn`, the deletion filter keeps it. -/
lemma filter_eq_self_of_absent {l : List Subscriber} {conn : Conn}
    (h : l.all (fun p => p.1 ≠ conn) = true) :
    l.filter (fun p => p.1 ≠ conn) = l := by
  apply List.filter_eq_self.mpr
  intro a ha
  exact (List.all_eq_true.mp h) a ha

/-- After deleting `conn` from a room, the pair is absent there. -/
lemma pairAbsent_removeSub (reg : RegMap) (room : String) (conn : Conn) :
    pairAbsent (removeSub reg room conn) room conn = true := by
  unfold pairAbsent
  rw [removeSub_apply_self]
  cases h : reg room with
  | none => simp
  | some l =>
      simp only [Option.getD_some, List.all_eq_true]
      intro p hp
      have := List.of_mem_filter hp
      simpa using this

/-- C6: performing `Remove` (line 254's `delete`) for a (room, connection)
pair that is already absent leaves the registry unchanged, and performing
`Remove` twice in a row for the same pair equals performing it once. -/
theorem removeSub_idempotent (reg : RegMap) (room : String) (conn : Conn) :
    (pairAbsent reg room conn = true → removeSub reg room conn = reg) ∧
    removeSub (removeSub reg room conn) room conn = removeSub reg room conn := by
  constructor
  · intro habs
    funext r
    by_cases hr : r = room
    · subst hr
      rw [removeSub_apply_self]
      unfold pairAbsent at habs
      cases h : reg r with
      | none => rfl
      | some l =>
          rw [h] at habs
          simp only [Option.getD_some] at habs
          simp only [filter_eq_self_of_absent habs]
    · exact removeSub_apply_ne reg room conn r hr
  · funext r
    by_cases hr : r = room
    · subst hr
      rw [removeSub_apply_self, removeSub_apply_self]
      cases h : reg r with
      | none => rfl
      | some l =>
          simp only []
          congr 1
          apply filter_eq_self_of_absent
          simp only [List.all_eq_true]
          intro p hp
          have := List.of_mem_filter hp
          simpa using this
    · rw [removeSub_apply_ne _ _ _ _ hr, removeSub_apply_ne _ _ _ _ hr]

/-- Witness for C6: removing the never-added connection 5 from room `"a"`
of `reg6` leaves the registry unchanged. -/
theorem removeSub_idempotent_witness :
    pairAbsent reg6 "a" 5 = true ∧ removeSub reg6 "a" 5 = reg6 :=
  ⟨by decide, (removeSub_idempotent reg6 "a" 5).1 (by decide)⟩

/-- C5: `notifyClients` on a room whose registry slot is absent, or whose
inner map is empty, returns with no write attempts, no cancellations, and
the registry unchanged — both cases behave identically. -/
theorem notifyClients_no_subscribers (reg : RegMap) (m : Message)
    (writeFails : Conn → Bool) :
    (reg m.roomId = none → notifyClients reg m writeFails = ⟨reg, [], []⟩) ∧
    (reg m.roomId = some [] → notifyClients reg m writeFails = ⟨reg, [], []⟩) := by
  constructor
  · intro h
    simp [notifyClients, h]
  · intro h
    simp [notifyClients, h]

/-- Witness for C5: publishing `msg5` against the empty registry (absent
slot) and against `reg5` (present empty slot) both do nothing. -/
theorem notifyClients_no_subscribers_witness :
    emptyReg msg5.roomId = none ∧
    notifyClients emptyReg msg5 (fun _ => true) = ⟨emptyReg, [], []⟩ ∧
    reg5 msg5.roomId = some [] ∧
    notifyClients reg5 msg5 (fun _ => true) = ⟨reg5, [], []⟩ :=
  ⟨rfl, (notifyClients_no_subscribers emptyReg msg5 (fun _ => true)).1 rfl,
   by decide,
   (notifyClients_no_subscribers reg5 msg5 (fun _ => true)).2 (by decide)⟩

/-- C7: the serialized form of a `Message` has exactly the fields `kind` and
`value` (no `roomId` leak), and a client parsing it back recovers the same
`kind` and `value`. -/
theorem message_wire_roundtrip (m : Message) :
    jsonKeys m.toJson = ["kind", "value"] ∧
    "roomId" ∉ jsonKeys m.toJson ∧
    decodeMessage m.toJson = some (m.kind, m.value) := by
  refine ⟨rfl, ?_, ?_⟩
  · intro h
    simp [Message.toJson, jsonKeys] at h
  · simp [Message.toJson, decodeMessage, jsonGet]

/-- Deleting `conn` from its room leaves it absent from that room's set. -/
lemma connMem_removeSub_self (reg : RegMap) (room : String) (conn : Conn) :
    connMem (removeSub reg room conn) room conn = false := by
  unfold connMem
  rw [removeSub_apply_self]
  cases h : reg room with
  | none => rfl
  | some l =>
      simp only [Option.getD_some, List.any_eq_false]
      intro p hp
      have := List.of_mem_filter hp
      simpa using this

/-- C2 (amended): once registered, whichever signal completes the wait
(`signal` is not inspected — both unblock the same `<-ctx.Done()` and the
same continuation), the session deletes its registry entry and closes its
connection, and the connection is no longer a member of the room's set;
during panic unwinding only the deferred `conn.Close()` runs. -/
theorem session_cleanup_on_signal (reg : RegMap) (raw : String) (conn : Conn)
    (k : Cancel) (signal : WakeSignal) :
    (runRegisteredSession reg raw conn k signal false).removedRun = true ∧
    (runRegisteredSession reg raw conn k signal false).closedConn = true ∧
    connMem (runRegisteredSession reg raw conn k signal false).reg raw conn = false ∧
    runRegisteredSession reg raw conn k signal false =
      runRegisteredSession reg raw conn k .ctxDone false ∧
    (runRegisteredSession reg raw conn k signal true).closedConn = true := by
  refine ⟨rfl, rfl, ?_, rfl, rfl⟩
  exact connMem_removeSub_self _ raw conn

/-- Counterexample to C2 as stated: the registry deletion at line 254 is a
plain statement, not a deferred one, so a session unwinding due to a panic
at its suspension point runs the deferred `conn.Close()` but not the
registry removal — the connection stays registered. -/
theorem session_panic_skips_removal :
    (runRegisteredSession emptyReg "a" 1 10 .ctxDone true).removedRun = false ∧
    connMem (runRegisteredSession emptyReg "a" 1 10 .ctxDone true).reg "a" 1 = true ∧
    (runRegisteredSession emptyReg "a" 1 10 .ctxDone true).closedConn = true :=
  ⟨rfl, by decide, rfl⟩

/-- C1: publishing to a room with subscribers `[A, B, C]` where exactly B's
write fails attempts a write to all three (B only once — no retry), invokes
exactly B's cancel handle, leaves the registry untouched by `notifyClients`
itself, and once B's woken session runs its deletion, the room's set is
`[A, C]` and no longer contains B. -/
theorem publish_write_failure_evicts (reg : RegMap) (m : Message)
    (A B C : Conn) (ca cb cc : Cancel) (writeFails : Conn → Bool)
    (hsubs : reg m.roomId = some [(A, ca), (B, cb), (C, cc)])
    (hA : writeFails A = false) (hB : writeFails B = true)
    (hC : writeFails C = false) (hAB : A ≠ B) (hCB : C ≠ B) :
    (notifyClients reg m writeFails).attempts = [A, B, C] ∧
    (notifyClients reg m writeFails).cancels = [(B, cb)] ∧
    (notifyClients reg m writeFails).reg = reg ∧
    removeSub reg m.roomId B m.roomId = some [(A, ca), (C, cc)] ∧
    connMem (removeSub reg m.roomId B) m.roomId B = false := by
  refine ⟨?_, ?_, ?_, ?_, connMem_removeSub_self _ _ _⟩
  · unfold notifyClients
    rw [hsubs]
    simp
  · unfold notifyClients
    rw [hsubs]
    simp [hA, hB, hC]
  · unfold notifyClients
    rw [hsubs]
    simp
  · rw [removeSub_apply_self, hsubs]
    simp [hAB, hCB]

/-- Witness for C1: in `reg1c`, with connection 2's write failing, all of
1, 2, 3 are attempted, only (2, 12) is cancelled, and after 2's session
deletes itself the room holds exactly 1 and 3. -/
theorem publish_write_failure_evicts_witness :
    reg1c msg1c.roomId = some [(1, 11), (2, 12), (3, 13)] ∧
    (notifyClients reg1c msg1c (fun c => c == 2)).attempts = [1, 2, 3] ∧
    (notifyClients reg1c msg1c (fun c => c == 2)).cancels = [(2, 12)] ∧
    removeSub reg1c msg1c.roomId 2 msg1c.roomId = some [(1, 11), (3, 13)] ∧
    connMem (removeSub reg1c msg1c.roomId 2) msg1c.roomId 2 = false := by
  have h := publish_write_failure_evicts reg1c msg1c 1 2 3 11 12 13
    (fun c => c == 2) (by decide) (by decide) (by decide) (by decide)
    (by decide) (by decide)
  exact ⟨by decide, h.1, h.2.1, h.2.2.2.1, h.2.2.2.2⟩

/-- C4: a subscribe request whose room id fails to parse gets a 400, one
whose room the store reports missing gets a 404, and any other store error
gets a 500; in all three cases no upgrade is attempted, no registration
happens, and the registry is returned unchanged. -/
theorem handleSubscribe_validation_failures (parse : String → Option String)
    (getRoom : String → GetRoomResult) (upgradeOk : Bool) (raw : String)
    (conn : Conn) (k : Cancel) (reg : RegMap) (signal : WakeSignal)
    (panicAtWait : Bool) :
    (parse raw = none →
      handleSubscribe parse getRoom upgradeOk raw conn k reg signal panicAtWait =
        ⟨some ("Invalid room id", 400), false, false, false, false, reg⟩) ∧
    (∀ u, parse raw = some u → getRoom u = .noRows →
      handleSubscribe parse getRoom upgradeOk raw conn k reg signal panicAtWait =
        ⟨some ("room not found", 404), false, false, false, false, reg⟩) ∧
    (∀ u, parse raw = some u → getRoom u = .err →
      handleSubscribe parse getRoom upgradeOk raw conn k reg signal panicAtWait =
        ⟨some ("Something went wrong", 500), false, false, false, false, reg⟩) := by
  refine ⟨?_, ?_, ?_⟩
  · intro h
    simp [handleSubscribe, h]
  · intro u hp hg
    simp [handleSubscribe, hp, hg]
  · intro u hp hg
    simp [handleSubscribe, hp, hg]

/-- Witness for C4: malformed id → 400; existing parse but store `noRows` →
404; store error → 500 — each with no upgrade, no registration, registry
unchanged. -/
theorem handleSubscribe_validation_failures_witness :
    parse4 "bad" = none ∧
    handleSubscribe parse4 (fun _ => .ok) true "bad" 1 10 emptyReg .ctxDone false =
      ⟨some ("Invalid room id", 400), false, false, false, false, emptyReg⟩ ∧
    parse4 "good" = some "u" ∧
    handleSubscribe parse4 (fun _ => .noRows) true "good" 1 10 emptyReg .ctxDone false =
      ⟨some ("room not found", 404), false, false, false, false, emptyReg⟩ ∧
    handleSubscribe parse4 (fun _ => .err) true "good" 1 10 emptyReg .ctxDone false =
      ⟨some ("Something went wrong", 500), false, false, false, false, emptyReg⟩ :=
  ⟨by decide,
   (handleSubscribe_validation_failures parse4 (fun _ => .ok) true "bad" 1 10
     emptyReg .ctxDone false).1 (by decide),
   by decide,
   (handleSubscribe_validation_failures parse4 (fun _ => .noRows) true "good" 1 10
     emptyReg .ctxDone false).2.1 "u" (by decide) rfl,
   (handleSubscribe_validation_failures parse4 (fun _ => .err) true "good" 1 10
     emptyReg .ctxDone false).2.2 "u" (by decide) rfl⟩

/-- C3: with the room valid and the body well-formed, a successful insert
produces the `{message_id}` response strictly before the spawned
`MessageCreated` broadcast carrying `{id, message}`; a failed insert
produces a 500 and spawns no broadcast; and the handler's event trace —
including its HTTP response — is the same whatever the broadcast-side
write failures are. -/
theorem createMessage_two_phase (parse : String → Option String)
    (getRoom : String → GetRoomResult) (decodeBody : Option String)
    (insertMessage : String → String → Option String) (raw : String)
    (reg : RegMap) :
    (∀ u t msgId, parse raw = some u → getRoom u = .ok → decodeBody = some t →
      insertMessage u t = some msgId →
      handleCreateRoomMessage parse getRoom decodeBody insertMessage raw =
        [.writeResponse (.obj [("message_id", .str msgId)]),
         .goNotify ⟨raw, kindMessageCreated,
           .obj [("id", .str msgId), ("message", .str t)]⟩]) ∧
    (∀ u t, parse raw = some u → getRoom u = .ok → decodeBody = some t →
      insertMessage u t = none →
      handleCreateRoomMessage parse getRoom decodeBody insertMessage raw =
        [.httpError "Something went wrong" 500] ∧
      spawnedMessage
        (handleCreateRoomMessage parse getRoom decodeBody insertMessage raw) = none) ∧
    (∀ writeFails writeFails' : Conn → Bool,
      (runCreateThenNotify parse getRoom decodeBody insertMessage raw reg writeFails).1 =
      (runCreateThenNotify parse getRoom decodeBody insertMessage raw reg writeFails').1) := by
  refine ⟨?_, ?_, ?_⟩
  · intro u t msgId hp hg hb hi
    simp [handleCreateRoomMessage, hp, hg, hb, hi]
  · intro u t hp hg hb hi
    have htrace : handleCreateRoomMessage parse getRoom decodeBody insertMessage raw =
        [.httpError "Something went wrong" 500] := by
      simp [handleCreateRoomMessage, hp, hg, hb, hi]
    exact ⟨htrace, by rw [htrace]; rfl⟩
  · intro writeFails writeFails'
    unfold runCreateThenNotify
    cases h : spawnedMessage
        (handleCreateRoomMessage parse getRoom decodeBody insertMessage raw) <;>
      simp [h]

/-- Witness for C3: a successful create responds then spawns; a failing
insert responds 500 and spawns nothing; the handler trace ignores
broadcast-side failures. -/
theorem createMessage_two_phase_witness :
    handleCreateRoomMessage parse3 (fun _ => .ok) (some "hello")
        (fun _ _ => some "mid") "r" =
      [.writeResponse (.obj [("message_id", .str "mid")]),
       .goNotify ⟨"r", kindMessageCreated,
         .obj [("id", .str "mid"), ("message", .str "hello")]⟩] ∧
    handleCreateRoomMessage parse3 (fun _ => .ok) (some "hello")
        (fun _ _ => none) "r" = [.httpError "Something went wrong" 500] ∧
    spawnedMessage (handleCreateRoomMessage parse3 (fun _ => .ok) (some "hello")
        (fun _ _ => none) "r") = none ∧
    (runCreateThenNotify parse3 (fun _ => .ok) (some "hello")
        (fun _ _ => some "mid") "r" reg1c (fun _ => true)).1 =
    (runCreateThenNotify parse3 (fun _ => .ok) (some "hello")
        (fun _ _ => some "mid") "r" reg1c (fun _ => false)).1 := by
  have hok := (createMessage_two_phase parse3 (fun _ => .ok) (some "hello")
    (fun _ _ => some "mid") "r" reg1c).1 "u" "hello" "mid" (by decide) rfl rfl rfl
  have hfail := (createMessage_two_phase parse3 (fun _ => .ok) (some "hello")
    (fun _ _ => none) "r" reg1c).2.1 "u" "hello" (by decide) rfl rfl rfl
  have hind := (createMessage_two_phase parse3 (fun _ => .ok) (some "hello")
    (fun _ _ => some "mid") "r" reg1c).2.2 (fun _ => true) (fun _ => false)
  exact ⟨hok, hfail.1, hfail.2, hind⟩

/-- C9: lines 240–254 key the registry by `rawRoomId` and line 352 publishes
under the creating request's `rawRoomId`: when two different raw strings
`s1 ≠ s2` both parse to the same UUID `u` of an existing room, a subscriber
registered under `s1` occupies a different registry slot than a publish
addressed to `s2`, so that publish attempts no write to it at all. -/
theorem registry_keyed_by_raw_string (parse : String → Option String)
    (getRoom : String → GetRoomResult) (s1 s2 u : String) (conn : Conn)
    (k : Cancel) (kind : String) (v : Json) (writeFails : Conn → Bool)
    (hp1 : parse s1 = some u) (hp2 : parse s2 = some u) (hne : s1 ≠ s2)
    (hroom : getRoom u = .ok) :
    connMem (addSub emptyReg s1 conn k) s1 conn = true ∧
    addSub emptyReg s1 conn k s2 = none ∧
    (notifyClients (addSub emptyReg s1 conn k) ⟨s2, kind, v⟩ writeFails).attempts = [] := by
  have hlook : addSub emptyReg s1 conn k s2 = none := by
    rw [addSub_apply_ne emptyReg s1 conn k s2 (Ne.symm hne)]
    rfl
  refine ⟨?_, hlook, ?_⟩
  · unfold connMem
    rw [addSub_apply_self]
    simp [insertPair, emptyReg]
  · unfold notifyClients
    rw [show (Message.mk s2 kind v).roomId = s2 from rfl, hlook]

/-- Witness for C9: a subscriber registered under raw id `"AB"` receives
nothing from a publish addressed to raw id `"ab"`, although both strings
pass validation as the same room. -/
theorem registry_keyed_by_raw_string_witness :
    parse9 "AB" = some "ab" ∧
    parse9 "ab" = some "ab" ∧
    connMem (addSub emptyReg "AB" 1 10) "AB" 1 = true ∧
    addSub emptyReg "AB" 1 10 "ab" = none ∧
    (notifyClients (addSub emptyReg "AB" 1 10)
      ⟨"ab", kindMessageCreated, .str "x"⟩ (fun _ => false)).attempts = [] := by
  have h := registry_keyed_by_raw_string parse9 (fun _ => .ok) "AB" "ab" "ab"
    1 10 kindMessageCreated (.str "x") (fun _ => false)
    (by decide) (by decide) (by decide) rfl
  exact ⟨by decide, by decide, h.1, h.2.1, h.2.2⟩

/-- Membership after an `Add`: the connection is the added one in the added
room, or it was already a member. -/
lemma connMem_addSub_imp {reg : RegMap} {room : String} {conn : Conn}
    {k : Cancel} {r : String} {c : Conn}
    (h : connMem (addSub reg room conn k) r c = true) :
    (c = conn ∧ r = room) ∨ connMem reg r c = true := by
  by_cases hr : r = room
  · subst hr
    unfold connMem at h
    rw [addSub_apply_self] at h
    simp only [Option.getD_some, insertPair, List.any_append] at h
    rcases Bool.or_eq_true_iff.mp h with h1 | h2
    · right
      unfold connMem
      obtain ⟨p, hp, hpc⟩ := List.any_eq_true.mp h1
      exact List.any_eq_true.mpr ⟨p, List.mem_of_mem_filter hp, hpc⟩
    · left
      simp only [List.any_cons, List.any_nil, Bool.or_false, decide_eq_true_eq] at h2
      exact ⟨h2.symm, rfl⟩
  · unfold connMem at h
    rw [addSub_apply_ne _ _ _ _ _ hr] at h
    right
    exact h

/-- Membership after a `Remove` implies membership before it. -/
lemma connMem_removeSub_imp {reg : RegMap} {room : String} {conn : Conn}
    {r : String} {c : Conn}
    (h : connMem (removeSub reg room conn) r c = true) :
    connMem reg r c = true := by
  by_cases hr : r = room
  · subst hr
    unfold connMem at h ⊢
    rw [removeSub_apply_self] at h
    cases hl : reg r with
    | none => rw [hl] at h; simp at h
    | some l =>
        rw [hl] at h
        simp only [Option.getD_some] at h ⊢
        obtain ⟨p, hp, hpc⟩ := List.any_eq_true.mp h
        exact List.any_eq_true.mpr ⟨p, List.mem_of_mem_filter hp, hpc⟩
  · unfold connMem at h ⊢
    rw [removeSub_apply_ne _ _ _ _ hr] at h
    exact h

/-- C8: in every reachable registry state a connection belongs to at most
one room's set; an `Add` on a room with no slot creates the slot holding
exactly the new pair; a `Remove` deletes only the individual entry — the
room's slot itself stays present. -/
theorem registry_invariants :
    (∀ reg, Reachable reg → ∀ r1 r2 c, r1 ≠ r2 →
      connMem reg r1 c = true → connMem reg r2 c = false) ∧
    (∀ (reg : RegMap) room conn k, reg room = none →
      addSub reg room conn k room = some [(conn, k)]) ∧
    (∀ (reg : RegMap) room conn l, reg room = some l →
      removeSub reg room conn room = some (l.filter (fun p => p.1 ≠ conn))) := by
  refine ⟨?_, ?_, ?_⟩
  · intro reg hre
    induction hre with
    | empty =>
        intro r1 r2 c _ h1
        simp [connMem, emptyReg] at h1
    | add reg room conn k hre hfresh ih =>
        intro r1 r2 c hne h1
        by_contra hcon
        rw [Bool.not_eq_false] at hcon
        rcases connMem_addSub_imp h1 with ⟨hc, hr1⟩ | hold1
        · rcases connMem_addSub_imp hcon with ⟨hc2, hr2⟩ | hold2
          · exact hne (hr1.trans hr2.symm)
          · subst hc
            exact absurd hold2 (by simp [hfresh r2])
        · rcases connMem_addSub_imp hcon with ⟨hc2, hr2⟩ | hold2
          · subst hc2
            exact absurd hold1 (by simp [hfresh r1])
          · exact absurd hold2 (by simp [ih r1 r2 c hne hold1])
    | remove reg room conn hre ih =>
        intro r1 r2 c hne h1
        by_contra hcon
        rw [Bool.not_eq_false] at hcon
        have h1' := connMem_removeSub_imp h1
        have h2' := connMem_removeSub_imp hcon
        exact absurd h2' (by simp [ih r1 r2 c hne h1'])
  · intro reg room conn k h
    rw [addSub_apply_self, h]
    rfl
  · intro reg room conn l h
    rw [removeSub_apply_self, h]

/-- Witness for C8: after registering connection 1 in room `"a"` from the
empty registry (a reachable state), 1 is in `"a"` and in no other room;
adding to a slotless room `"b"` creates its slot; removing 1 from `"a"`
leaves the (now empty) slot present. -/
theorem registry_invariants_witness :
    connMem (addSub emptyReg "a" 1 10) "a" 1 = true ∧
    connMem (addSub emptyReg "a" 1 10) "b" 1 = false ∧
    addSub emptyReg "b" 2 20 "b" = some [(2, 20)] ∧
    removeSub (addSub emptyReg "a" 1 10) "a" 1 "a" = some [] := by
  have hre : Reachable (addSub emptyReg "a" 1 10) :=
    Reachable.add emptyReg "a" 1 10 Reachable.empty (fun r => rfl)
  refine ⟨by decide, ?_, ?_, ?_⟩
  · exact registry_invariants.1 _ hre "a" "b" 1 (by decide) (by decide)
  · exact registry_invariants.2.1 emptyReg "b" 2 20 rfl
  · have h := registry_invariants.2.2 (addSub emptyReg "a" 1 10) "a" 1
      [(1, 10)] (by decide)
    simpa using h

/-- Deleting one connection from an inner list does not change whether any
other connection occurs in it. -/
lemma any_filter_ne (l : List Subscriber) (c conn : Conn) (h : conn ≠ c) :
    (l.filter (fun p => p.1 ≠ c)).any (fun p => p.1 = conn) =
      l.any (fun p => p.1 = conn) := by
  rw [Bool.eq_iff_iff, List.any_eq_true, List.any_eq_true]
  constructor
  · rintro ⟨p, hp, hpc⟩
    exact ⟨p, List.mem_of_mem_filter hp, hpc⟩
  · rintro ⟨p, hp, hpc⟩
    refine ⟨p, List.mem_filter.mpr ⟨hp, ?_⟩, hpc⟩
    simp only [decide_eq_true_eq] at hpc ⊢
    exact fun hc => h (hpc ▸ hc)

/-- Effect of one operation on membership of a (room, connection) pair: an
operation touching the pair decides membership by whether it is an `Add`;
any other operation leaves that membership unchanged. -/
lemma connMem_applyOp (reg : RegMap) (op : RegOp) (room : String) (conn : Conn) :
    connMem (applyOp reg op) room conn =
      if opTouches room conn op then opIsAdd op else connMem reg room conn := by
  cases op with
  | add r c k =>
      simp only [applyOp, opTouches, opIsAdd]
      by_cases hr : r = room
      · subst hr
        by_cases hc : c = conn
        · subst hc
          unfold connMem
          rw [addSub_apply_self]
          simp [insertPair, List.any_append]
        · unfold connMem
          rw [addSub_apply_self]
          simp only [Option.getD_some, insertPair, List.any_append]
          rw [any_filter_ne _ _ _ (fun hh => hc hh.symm)]
          simp [hc]
      · unfold connMem
        rw [addSub_apply_ne _ _ _ _ _ (fun hh => hr hh.symm)]
        simp [hr]
  | remove r c =>
      simp only [applyOp, opTouches, opIsAdd]
      by_cases hr : r = room
      · subst hr
        by_cases hc : c = conn
        · subst hc
          rw [connMem_removeSub_self]
          simp
        · unfold connMem
          rw [removeSub_apply_self]
          cases hl : reg r with
          | none => simp [hc]
          | some l =>
              simp only [Option.getD_some]
              rw [any_filter_ne _ _ _ (fun hh => hc hh.symm)]
              simp [hc]
      · unfold connMem
        rw [removeSub_apply_ne _ _ _ _ (fun hh => hr hh.symm)]
        simp [hr]

/-- Membership after a serialized history: decided by the last operation on
the pair, and by the starting registry when no operation touches it. -/
lemma connMem_applyOps (ops : List RegOp) (reg : RegMap) (room : String)
    (conn : Conn) :
    connMem (applyOps reg ops) room conn =
      match ops.reverse.find? (opTouches room conn) with
      | some op => opIsAdd op
      | none => connMem reg room conn := by
  induction ops generalizing reg with
  | nil => rfl
  | cons op ops ih =>
      show connMem (applyOps (applyOp reg op) ops) room conn = _
      rw [ih, List.reverse_cons, List.find?_append]
      cases hfind : ops.reverse.find? (opTouches room conn) with
      | some o => rfl
      | none =>
          simp only [Option.none_or]
          rw [connMem_applyOp]
          cases htouch : opTouches room conn op <;>
            simp [List.find?, htouch]

/-- One operation preserves "no room's list holds a duplicated connection". -/
lemma nodup_connsOf_applyOp (reg : RegMap) (op : RegOp)
    (h : ∀ r, (connsOf reg r).Nodup) : ∀ r, (connsOf (applyOp reg op) r).Nodup := by
  cases op with
  | add room conn k =>
      intro r
      by_cases hr : r = room
      · subst hr
        unfold connsOf
        rw [show applyOp reg (.add r conn k) r =
            some (insertPair ((reg r).getD []) conn k) from addSub_apply_self _ _ _ _]
        simp only [Option.getD_some, insertPair, List.map_append]
        rw [List.nodup_append]
        refine ⟨((List.filter_sublist _).map _).nodup (h r), by simp, ?_⟩
        intro x hx
        simp only [List.map_cons, List.map_nil, List.mem_singleton]
        simp only [List.mem_map] at hx
        obtain ⟨p, hp, hpx⟩ := hx
        have hpc := List.of_mem_filter hp
        simp only [decide_eq_true_eq] at hpc
        rw [← hpx]
        exact hpc
      · unfold connsOf
        rw [show applyOp reg (.add room conn k) r = reg r from
          addSub_apply_ne _ _ _ _ _ hr]
        exact h r
  | remove room conn =>
      intro r
      by_cases hr : r = room
      · subst hr
        unfold connsOf
        rw [show applyOp reg (.remove r conn) r =
            match reg r with
            | none => none
            | some l => some (l.filter (fun p => p.1 ≠ conn)) from
          removeSub_apply_self _ _ _]
        cases hl : reg r with
        | none => simp
        | some l =>
            simp only [Option.getD_some]
            have hn := h r
            unfold connsOf at hn
            rw [hl] at hn
            exact ((List.filter_sublist _).map _).nodup hn
      · unfold connsOf
        rw [show applyOp reg (.remove room conn) r = reg r from
          removeSub_apply_ne _ _ _ _ hr]
        exact h r

/-- A serialized history preserves duplicate-freeness. -/
lemma nodup_connsOf_applyOps (ops : List RegOp) (reg : RegMap)
    (h : ∀ r, (connsOf reg r).Nodup) :
    ∀ r, (connsOf (applyOps reg ops) r).Nodup := by
  induction ops generalizing reg with
  | nil => exact h
  | cons op ops ih => exact ih (applyOp reg op) (nodup_connsOf_applyOp reg op h)

/-- C10: all registry access in the source holds the one shared mutex, so a
concurrent execution of sessions and publishers is a serialized history of
atomic operations; over every such history from the empty registry, a room's
subscriber set contains exactly the connections whose last operation is an
unmatched `Add` (no lost entries), and never a duplicated connection (no
torn or duplicated entries). -/
theorem registry_serialized_history (ops : List RegOp) (room : String)
    (conn : Conn) :
    connMem (applyOps emptyReg ops) room conn = specPendingAdd ops room conn ∧
    (connsOf (applyOps emptyReg ops) room).Nodup := by
  constructor
  · rw [connMem_applyOps]
    unfold specPendingAdd
    cases ops.reverse.find? (opTouches room conn) with
    | some op => rfl
    | none => rfl
  · exact nodup_connsOf_applyOps ops emptyReg
      (fun r => by simp [connsOf, emptyReg]) room
